import Mathlib

/-!
Verification of `faketerm` (package faketerm, faketerm.go).

The Go code wraps an `io.Reader` in a `bufio.Scanner` (default split
function `bufio.ScanLines`, default maximum token size 64 KiB) and an
`io.Writer` behind a mutex.  We embed:

* the input stream as the list of bytes the reader will deliver
  (`data`) together with the error the reader reports once the bytes
  are exhausted (`rerr`; `none` means a clean `io.EOF`);
* `bufio.Scanner`'s observable behaviour for the `ScanLines` split
  function: tokens are maximal newline-free segments with a single
  trailing carriage return removed (`dropCR`), a segment of
  `maxScanTokenSize` (65536) or more bytes without a newline makes the
  scanner fail with `ErrTooLong` while keeping the 65536 buffered bytes
  (which the next `Scan` then returns as a token, `atEOF` being true
  once `s.err` is set, before further calls fail permanently), at end
  of input a nonempty remainder is delivered as a final token, and once
  the buffer is empty and an error is recorded every later `Scan`
  returns `false` with that error;
* the output sink as a log of the byte buffers passed to its `Write`
  calls, with the sink's return value given by a behaviour function.

Bytes are modelled as `Char`, strings as `List Char`.
-/

/-- Errors observable from the scanner / `ReadLine`:
`io.EOF`, `bufio.ErrTooLong`, or an error produced by the underlying
reader (identified by a numeric code). -/
inductive GoErr where
  | eof : GoErr
  | tooLong : GoErr
  | reader (e : Nat) : GoErr
deriving DecidableEq, Repr

/-- The scanner's default maximum token size, `bufio.MaxScanTokenSize`. -/
def maxScanTokenSize : Nat := 65536

/-- Go helper `dropCR` from bufio: drop a single terminal carriage
return (used by `ScanLines`). -/
def dropCR (l : List Char) : List Char :=
  match l.getLast? with
  | some c => if c = '\r' then l.dropLast else l
  | none => l

/-- Index of the first newline byte in the buffered data
(`bytes.IndexByte(data, '\n')`). -/
def findNL : List Char → Option Nat
  | [] => none
  | c :: cs => if c = '\n' then some 0 else (findNL cs).map (· + 1)

/-- Go call `strings.TrimRight(s, "\x5cr\x5cn")`: remove every trailing
carriage return or newline. -/
def trimRightCRLF (l : List Char) : List Char :=
  (l.reverse.dropWhile (fun c => c = '\r' || c = '\n')).reverse

/-- The state of a `FakeTerm`:
`data`/`rerr` describe what is still to come from the underlying
reader, `serr` is the scanner's recorded error (`s.err`; sticky), and
`wcalls` is the log of buffers handed to the output sink, in order. -/
structure FakeTerm where
  data : List Char
  rerr : Option Nat
  serr : Option GoErr
  wcalls : List (List Char)
deriving DecidableEq, Repr

/-- Constructor `New(r, w)`: a fresh `FakeTerm` over a stream that will deliver
`data` and then report `rerr` (`none` = clean EOF); no sink calls yet. -/
def New (data : List Char) (rerr : Option Nat) : FakeTerm :=
  { data := data, rerr := rerr, serr := none, wcalls := [] }

/-- One call to `f.s.Scan()` with the `ScanLines` split function:
returns the token produced (if any) and the new state.

When `s.err` is already set the scanner reads no further; it hands the
buffered bytes to `ScanLines` with `atEOF = true`, which yields the
next full line if one is buffered, otherwise the nonempty remainder as
a final token, otherwise no token (`Scan` returns `false`).

When `s.err` is nil the scanner reads until a token or an error.  A
newline within the first `maxScanTokenSize` bytes yields that line.  If
the first `maxScanTokenSize` bytes contain no newline the buffer fills
completely and `Scan` records `ErrTooLong` and returns `false` at once
— crucially keeping those buffered bytes, and never reading the rest of
the stream, so the next call returns them as a token.  Otherwise the
reader's end is reached: `io.EOF` or the reader's error is recorded,
and a nonempty remainder is delivered as a final token in the same
call (the read loop continues into the `atEOF` split). -/
def scanStep (f : FakeTerm) : Option (List Char) × FakeTerm :=
  if f.serr.isSome then
    match findNL f.data with
    | some i =>
        (some (dropCR (f.data.take i)), { f with data := f.data.drop (i + 1) })
    | none =>
        if f.data.isEmpty then
          (none, f)
        else
          (some (dropCR f.data), { f with data := [] })
  else
    match findNL f.data with
    | some i =>
        if maxScanTokenSize ≤ i then
          (none,
            { f with data := f.data.take maxScanTokenSize, serr := some GoErr.tooLong })
        else
          (some (dropCR (f.data.take i)), { f with data := f.data.drop (i + 1) })
    | none =>
        if maxScanTokenSize ≤ f.data.length then
          (none,
            { f with data := f.data.take maxScanTokenSize, serr := some GoErr.tooLong })
        else
          match f.rerr with
          | none =>
              if f.data.isEmpty then
                (none, { f with serr := some GoErr.eof })
              else
                (some (dropCR f.data), { f with data := [], serr := some GoErr.eof })
          | some e =>
              if f.data.isEmpty then
                (none, { f with serr := some (GoErr.reader e) })
              else
                (some (dropCR f.data),
                  { f with data := [], serr := some (GoErr.reader e) })

/-- Method `ReadLine`: scan one token; on success return it with
trailing `\r`/`\n` trimmed and a nil error; otherwise return the empty
string with `io.EOF` (when `s.Err()` is nil, i.e. the recorded error is
`io.EOF`) or the recorded error. -/
def FakeTerm.ReadLine (f : FakeTerm) : (List Char × Option GoErr) × FakeTerm :=
  match scanStep f with
  | (some tok, f') => ((trimRightCRLF tok, none), f')
  | (none, f') =>
      match f'.serr with
      | some GoErr.eof => (([], some GoErr.eof), f')
      | some e => (([], some e), f')
      | none => (([], some GoErr.eof), f')

/-- Method `ReadPassword`: a thin wrapper around `ReadLine`; the
prompt is ignored. -/
def FakeTerm.ReadPassword (f : FakeTerm) (_prompt : List Char) :
    (List Char × Option GoErr) × FakeTerm :=
  f.ReadLine

/-- Method `SetBracketedPasteMode`: a no-op. -/
def FakeTerm.SetBracketedPasteMode (f : FakeTerm) (_onArg : Bool) : FakeTerm :=
  f

/-- Method `SetPrompt`: a no-op. -/
def FakeTerm.SetPrompt (f : FakeTerm) (_prompt : List Char) : FakeTerm :=
  f

/-- Method `SetSize`: a no-op returning a nil error. -/
def FakeTerm.SetSize (f : FakeTerm) (_width _height : Int) :
    Option GoErr × FakeTerm :=
  (none, f)

/-- Method `Write`: forward `buf` verbatim to the sink in exactly one
sink call and return whatever the sink returns.  `wbeh` gives the
sink's return value (count written, optional error code) for a buffer. -/
def FakeTerm.Write (f : FakeTerm) (wbeh : List Char → Nat × Option Nat)
    (buf : List Char) : (Nat × Option Nat) × FakeTerm :=
  (wbeh buf, { f with wcalls := f.wcalls ++ [buf] })

/-- Iterated reading: `n` consecutive calls to `ReadLine`, collecting
the results. -/
def readLines : Nat → FakeTerm → List (List Char × Option GoErr) × FakeTerm
  | 0, f => ([], f)
  | n + 1, f =>
      let p := f.ReadLine
      let q := readLines n p.2
      (p.1 :: q.1, q.2)

/-- A stream of newline-terminated lines: each line followed by `\n`. -/
def joinLines : List (List Char) → List Char
  | [] => []
  | l :: ls => l ++ '\n' :: joinLines ls

/-! ### Helper lemmas about the scanner primitives -/

theorem findNL_eq_none {l : List Char} (h : '\n' ∉ l) : findNL l = none := by
  induction l with
  | nil => rfl
  | cons c cs ih =>
      simp only [List.mem_cons, not_or] at h
      have hc : ¬c = '\n' := fun hc => h.1 hc.symm
      simp [findNL, hc, ih h.2]

theorem findNL_append (l t : List Char) (h : '\n' ∉ l) :
    findNL (l ++ t) = (findNL t).map (fun i => i + l.length) := by
  induction l with
  | nil =>
      simp only [List.nil_append, List.length_nil]
      cases findNL t <;> simp
  | cons c cs ih =>
      simp only [List.mem_cons, not_or] at h
      have hc : ¬c = '\n' := fun hc => h.1 hc.symm
      rw [List.cons_append]
      show (if c = '\n' then some 0 else (findNL (cs ++ t)).map (· + 1)) = _
      rw [if_neg hc, ih h.2]
      cases findNL t <;> simp [Nat.add_assoc]

theorem trimRightCRLF_dropCR (l : List Char) :
    trimRightCRLF (dropCR l) = trimRightCRLF l := by
  induction l using List.reverseRecOn with
  | nil => rfl
  | append_singleton xs a _ =>
      by_cases ha : a = '\r'
      · subst ha
        simp [dropCR, List.getLast?_concat, List.dropLast_concat, trimRightCRLF,
          List.reverse_append]
      · simp [dropCR, List.getLast?_concat, ha]

theorem scanStep_line (l rest : List Char) (rerr : Option Nat) (w : List (List Char))
    (hl : '\n' ∉ l) (hlen : l.length < maxScanTokenSize) :
    scanStep ⟨l ++ '\n' :: rest, rerr, none, w⟩ = (some (dropCR l), ⟨rest, rerr, none, w⟩) := by
  have hfind : findNL (l ++ '\n' :: rest) = some l.length := by
    rw [findNL_append l ('\n' :: rest) hl]
    simp [findNL]
  have htake : (l ++ '\n' :: rest).take l.length = l := List.take_left l ('\n' :: rest)
  have hdrop : (l ++ '\n' :: rest).drop (l.length + 1) = rest := by
    have h1 : l ++ '\n' :: rest = (l ++ ['\n']) ++ rest := by simp
    have h2 : (l ++ ['\n']).length = l.length + 1 := by simp
    rw [h1, ← h2, List.drop_left]
  simp [scanStep, hfind, Nat.not_le.mpr hlen, htake, hdrop]

theorem ReadLine_line (l rest : List Char) (rerr : Option Nat) (w : List (List Char))
    (hl : '\n' ∉ l) (hlen : l.length < maxScanTokenSize) :
    FakeTerm.ReadLine ⟨l ++ '\n' :: rest, rerr, none, w⟩
      = ((trimRightCRLF l, none), ⟨rest, rerr, none, w⟩) := by
  simp [FakeTerm.ReadLine, scanStep_line l rest rerr w hl hlen, trimRightCRLF_dropCR]

theorem ReadLine_tail (tail : List Char) (w : List (List Char))
    (ht0 : tail ≠ []) (ht1 : '\n' ∉ tail) (ht2 : tail.length < maxScanTokenSize) :
    FakeTerm.ReadLine ⟨tail, none, none, w⟩
      = ((trimRightCRLF tail, none), ⟨[], none, some GoErr.eof, w⟩) := by
  have hempty : tail.isEmpty = false := by
    cases tail with
    | nil => exact absurd rfl ht0
    | cons c cs => rfl
  simp [FakeTerm.ReadLine, scanStep, findNL_eq_none ht1, Nat.not_le.mpr ht2, hempty,
    trimRightCRLF_dropCR]

theorem ReadLine_eof (w : List (List Char)) :
    FakeTerm.ReadLine ⟨[], none, none, w⟩
      = (([], some GoErr.eof), ⟨[], none, some GoErr.eof, w⟩) := by
  simp [FakeTerm.ReadLine, scanStep, findNL, maxScanTokenSize]

theorem ReadLine_rerr (e : Nat) (w : List (List Char)) :
    FakeTerm.ReadLine ⟨[], some e, none, w⟩
      = (([], some (GoErr.reader e)), ⟨[], some e, some (GoErr.reader e), w⟩) := by
  simp [FakeTerm.ReadLine, scanStep, findNL, maxScanTokenSize]

theorem ReadLine_serr_nil (f : FakeTerm) (e : GoErr) (h : f.serr = some e)
    (hd : f.data = []) :
    f.ReadLine = (([], some e), f) := by
  have hs : scanStep f = (none, f) := by simp [scanStep, h, hd, findNL]
  cases e <;> simp [FakeTerm.ReadLine, hs, h]

theorem ReadLine_serr_buffered (d : List Char) (rerr : Option Nat) (e : GoErr)
    (w : List (List Char)) (hd : d ≠ []) (hnl : '\n' ∉ d) :
    FakeTerm.ReadLine ⟨d, rerr, some e, w⟩
      = ((trimRightCRLF d, none), ⟨[], rerr, some e, w⟩) := by
  have hempty : d.isEmpty = false := by
    cases d with
    | nil => exact absurd rfl hd
    | cons c cs => rfl
  simp [FakeTerm.ReadLine, scanStep, findNL_eq_none hnl, hempty, trimRightCRLF_dropCR]

theorem readLines_joinLines (ls : List (List Char)) (tail : List Char)
    (rerr : Option Nat) (w : List (List Char))
    (h : ∀ l ∈ ls, '\n' ∉ l ∧ l.length < maxScanTokenSize) :
    readLines ls.length ⟨joinLines ls ++ tail, rerr, none, w⟩
      = (ls.map (fun l => (trimRightCRLF l, none)), ⟨tail, rerr, none, w⟩) := by
  induction ls with
  | nil => simp [readLines, joinLines]
  | cons l ls ih =>
      have hl := h l (List.mem_cons_self l ls)
      have ih' := ih (fun x hx => h x (List.mem_cons_of_mem l hx))
      have hdata : joinLines (l :: ls) ++ tail = l ++ '\n' :: (joinLines ls ++ tail) := by
        simp [joinLines]
      rw [List.length_cons]
      simp only [readLines, hdata, ReadLine_line l (joinLines ls ++ tail) rerr w hl.1 hl.2,
        ih', List.map_cons]

theorem readLines_serr (n : Nat) (f : FakeTerm) (e : GoErr) (h : f.serr = some e)
    (hd : f.data = []) :
    readLines n f = (List.replicate n ([], some e), f) := by
  induction n with
  | zero => simp [readLines]
  | succ n ih => simp [readLines, ReadLine_serr_nil f e h hd, ih, List.replicate_succ]

theorem scanStep_wcalls (f : FakeTerm) : ((scanStep f).2).wcalls = f.wcalls := by
  unfold scanStep
  repeat' split
  all_goals rfl

theorem ReadLine_snd (f : FakeTerm) : (f.ReadLine).2 = (scanStep f).2 := by
  unfold FakeTerm.ReadLine
  rcases h : scanStep f with ⟨tok, f'⟩
  rcases f' with ⟨d, re, se, w⟩
  cases tok with
  | some t => rfl
  | none =>
      cases se with
      | none => rfl
      | some e => cases e <;> rfl

theorem ReadLine_wcalls (f : FakeTerm) : ((f.ReadLine).2).wcalls = f.wcalls := by
  rw [ReadLine_snd]
  exact scanStep_wcalls f

theorem scanStep_none_serr (f : FakeTerm) (h : (scanStep f).1 = none) :
    ((scanStep f).2).serr.isSome := by
  rcases hse : f.serr with _ | e
  · rcases hfl : findNL f.data with _ | i
    · by_cases hlen : maxScanTokenSize ≤ f.data.length
      · simp [scanStep, hse, hfl, hlen]
      · rcases hre : f.rerr with _ | e
        · by_cases hemp : f.data.isEmpty
          · simp [scanStep, hse, hfl, hlen, hre, hemp]
          · simp [scanStep, hse, hfl, hlen, hre, hemp] at h
        · by_cases hemp : f.data.isEmpty
          · simp [scanStep, hse, hfl, hlen, hre, hemp]
          · simp [scanStep, hse, hfl, hlen, hre, hemp] at h
    · by_cases hlen : maxScanTokenSize ≤ i
      · simp [scanStep, hse, hfl, hlen]
      · simp [scanStep, hse, hfl, hlen] at h
  · rcases hfl : findNL f.data with _ | i
    · by_cases hemp : f.data.isEmpty
      · simp [scanStep, hse, hfl, hemp]
      · simp [scanStep, hse, hfl, hemp] at h
    · simp [scanStep, hse, hfl] at h

theorem ReadLine_err_serr (f : FakeTerm) (h : ((f.ReadLine).1.2).isSome) :
    (((f.ReadLine).2)).serr.isSome := by
  rw [ReadLine_snd]
  unfold FakeTerm.ReadLine at h
  rcases hs : scanStep f with ⟨tok, f'⟩
  cases tok with
  | some t =>
      rw [hs] at h
      simp at h
  | none =>
      have h2 := scanStep_none_serr f (by rw [hs])
      rw [hs] at h2
      exact h2

theorem ReadLine_tooLong_of_long_line (seg rest : List Char) (rerr : Option Nat)
    (w : List (List Char)) (h1 : '\n' ∉ seg) (h2 : maxScanTokenSize ≤ seg.length) :
    FakeTerm.ReadLine ⟨seg ++ rest, rerr, none, w⟩
      = (([], some GoErr.tooLong),
          ⟨(seg ++ rest).take maxScanTokenSize, rerr, some GoErr.tooLong, w⟩) := by
  have hstep : scanStep ⟨seg ++ rest, rerr, none, w⟩
      = (none, ⟨(seg ++ rest).take maxScanTokenSize, rerr, some GoErr.tooLong, w⟩) := by
    have hfa := findNL_append seg rest h1
    rcases hfr : findNL rest with _ | i
    · rw [hfr] at hfa
      have hlen : maxScanTokenSize ≤ seg.length + rest.length := by omega
      simp [scanStep, hfa, List.length_append, hlen]
    · rw [hfr] at hfa
      have hge : maxScanTokenSize ≤ i + seg.length := by omega
      simp [scanStep, hfa, hge]
  simp [FakeTerm.ReadLine, hstep]

theorem take_of_long_seg (seg rest : List Char) (h1 : '\n' ∉ seg)
    (h2 : maxScanTokenSize ≤ seg.length) :
    (seg ++ rest).take maxScanTokenSize ≠ [] ∧
    '\n' ∉ (seg ++ rest).take maxScanTokenSize := by
  have htake : (seg ++ rest).take maxScanTokenSize = seg.take maxScanTokenSize :=
    List.take_append_of_le_length h2
  constructor
  · rw [htake]
    intro hx
    have hlen : (seg.take maxScanTokenSize).length = 0 := by rw [hx]; rfl
    rw [List.length_take, Nat.min_eq_left h2] at hlen
    exact absurd hlen (by simp [maxScanTokenSize])
  · rw [htake]
    intro hx
    exact h1 ((List.take_sublist _ _).subset hx)

theorem isEmpty_false_of_ne_nil {l : List Char} (h : l ≠ []) : l.isEmpty = false := by
  cases l with
  | nil => exact absurd rfl h
  | cons c cs => rfl

theorem ReadLine_err_state (f : FakeTerm) (e : GoErr)
    (h : (f.ReadLine).1.2 = some e) (hne : e ≠ GoErr.tooLong) :
    ((f.ReadLine).2).serr = some e ∧ ((f.ReadLine).2).data = [] := by
  rcases hse : f.serr with _ | e0
  · rcases hfl : findNL f.data with _ | i
    · by_cases hlen : maxScanTokenSize ≤ f.data.length
      · simp [FakeTerm.ReadLine, scanStep, hse, hfl, hlen] at h
        exact absurd h.symm hne
      · have hz : ¬maxScanTokenSize = 0 := by simp [maxScanTokenSize]
        rcases hre : f.rerr with _ | e1
        · by_cases hd : f.data = []
          · simp [FakeTerm.ReadLine, scanStep, findNL, hse, hlen, hre, hd, hz] at h ⊢
            exact h
          · simp [FakeTerm.ReadLine, scanStep, hse, hfl, hlen, hre,
              isEmpty_false_of_ne_nil hd] at h
        · by_cases hd : f.data = []
          · simp [FakeTerm.ReadLine, scanStep, findNL, hse, hlen, hre, hd, hz] at h ⊢
            exact h
          · simp [FakeTerm.ReadLine, scanStep, hse, hfl, hlen, hre,
              isEmpty_false_of_ne_nil hd] at h
    · by_cases hlen : maxScanTokenSize ≤ i
      · simp [FakeTerm.ReadLine, scanStep, hse, hfl, hlen] at h
        exact absurd h.symm hne
      · simp [FakeTerm.ReadLine, scanStep, hse, hfl, hlen] at h
  · rcases hfl : findNL f.data with _ | i
    · by_cases hd : f.data = []
      · have hrl := ReadLine_serr_nil f e0 hse hd
        rw [hrl] at h ⊢
        simp at h
        exact ⟨h ▸ hse, hd⟩
      · simp [FakeTerm.ReadLine, scanStep, hse, hfl,
          isEmpty_false_of_ne_nil hd] at h
    · simp [FakeTerm.ReadLine, scanStep, hse, hfl] at h

/-! ### The claims -/

/-- C1 (amended): for every input stream consisting of `N`
newline-terminated lines, each line shorter than the scanner's
65536-byte maximum token size, `N` consecutive calls to `ReadLine`
return those `N` lines in order, each with trailing carriage-return and
newline characters stripped, each paired with a nil error.  The stream
may even end in an arbitrary reader error afterwards. -/
theorem ReadLine_returns_lines_in_order (ls : List (List Char)) (rerr : Option Nat)
    (h : ∀ l ∈ ls, '\n' ∉ l ∧ l.length < maxScanTokenSize) :
    (readLines ls.length (New (joinLines ls) rerr)).1
      = ls.map (fun l => (trimRightCRLF l, none)) := by
  have hmain := readLines_joinLines ls [] rerr [] h
  rw [List.append_nil] at hmain
  show (readLines ls.length ⟨joinLines ls, rerr, none, []⟩).1 = _
  rw [hmain]

/-- Witness for C1: the spec's example stream, two lines `hello\r` and
`world`, read back as `hello` and `world` with nil errors. -/
theorem ReadLine_returns_lines_in_order_witness :
    ((readLines 2
        (New (joinLines [['h', 'e', 'l', 'l', 'o', '\r'], ['w', 'o', 'r', 'l', 'd']]) none)).1
      = [['h', 'e', 'l', 'l', 'o', '\r'], ['w', 'o', 'r', 'l', 'd']].map
          (fun l => (trimRightCRLF l, none))) ∧
    ([['h', 'e', 'l', 'l', 'o', '\r'], ['w', 'o', 'r', 'l', 'd']].map
          (fun l => (trimRightCRLF l, none))
      = [(['h', 'e', 'l', 'l', 'o'], (none : Option GoErr)),
          (['w', 'o', 'r', 'l', 'd'], none)]) :=
  ⟨ReadLine_returns_lines_in_order
      [['h', 'e', 'l', 'l', 'o', '\r'], ['w', 'o', 'r', 'l', 'd']] none (by decide),
    by decide⟩

/-- Counterexample for C1 as literally stated: a single
newline-terminated line of 65536 bytes is not returned; `ReadLine`
yields the scanner's too-long error instead. -/
theorem ReadLine_returns_lines_in_order_cex :
    (readLines (List.length [List.replicate maxScanTokenSize 'a'])
        (New (joinLines [List.replicate maxScanTokenSize 'a']) none)).1
      ≠ [List.replicate maxScanTokenSize 'a'].map (fun l => (trimRightCRLF l, none)) := by
  have hjoin : joinLines [List.replicate maxScanTokenSize 'a']
      = List.replicate maxScanTokenSize 'a' ++ ['\n'] := by
    simp [joinLines]
  have hrl := ReadLine_tooLong_of_long_line (List.replicate maxScanTokenSize 'a') ['\n']
      none [] (by simp [List.mem_replicate]) (by simp)
  have hread : (readLines (List.length [List.replicate maxScanTokenSize 'a'])
      (New (joinLines [List.replicate maxScanTokenSize 'a']) none)).1
      = [([], some GoErr.tooLong)] := by
    show (readLines 1 ⟨joinLines [List.replicate maxScanTokenSize 'a'], none, none, []⟩).1 = _
    rw [hjoin]
    simp [readLines, hrl]
  rw [hread]
  simp

/-- C2 (amended): for every input stream consisting of
newline-terminated lines, each shorter than the scanner's 65536-byte
maximum token size, that reaches clean end-of-input with no underlying
error, the `ReadLine` call made after the last line has been consumed
returns the empty string together with the end-of-stream error. -/
theorem ReadLine_after_last_line_eof (ls : List (List Char))
    (h : ∀ l ∈ ls, '\n' ∉ l ∧ l.length < maxScanTokenSize) :
    (((readLines ls.length (New (joinLines ls) none)).2).ReadLine).1
      = ([], some GoErr.eof) := by
  have hmain := readLines_joinLines ls [] none [] h
  rw [List.append_nil] at hmain
  show ((readLines ls.length ⟨joinLines ls, none, none, []⟩).2).ReadLine.1 = _
  rw [hmain]
  simp [ReadLine_eof]

/-- Witness for C2 on the stream `ok\n`. -/
theorem ReadLine_after_last_line_eof_witness :
    (((readLines 1 (New (joinLines [['o', 'k']]) none)).2).ReadLine).1
      = ([], some GoErr.eof) :=
  ReadLine_after_last_line_eof [['o', 'k']] (by decide)

/-- Counterexample for C2 as literally stated: a stream made of the
line `a` followed by a 65536-byte unterminated line reaches clean
end-of-input, yet the call after the last available line returns the
too-long error, not the end-of-stream error. -/
theorem ReadLine_after_last_line_eof_cex :
    (((readLines (List.length [['a']])
        (New (joinLines [['a']] ++ List.replicate maxScanTokenSize 'b') none)).2).ReadLine).1
      ≠ ([], some GoErr.eof) := by
  have hmain := readLines_joinLines [['a']] (List.replicate maxScanTokenSize 'b')
      none [] (by decide)
  show ((readLines (List.length [['a']])
      ⟨joinLines [['a']] ++ List.replicate maxScanTokenSize 'b', none, none, []⟩).2).ReadLine.1
      ≠ _
  rw [hmain]
  have hrl := ReadLine_tooLong_of_long_line (List.replicate maxScanTokenSize 'b') [] none []
      (by simp [List.mem_replicate]) (by simp)
  rw [List.append_nil] at hrl
  simp [hrl]

/-- C3 (amended): for every input stream consisting of
newline-terminated lines, each shorter than the scanner's 65536-byte
maximum token size, whose underlying source reports error `e` before
end-of-stream, the `ReadLine` call made once those lines are exhausted
returns the empty string and that same underlying error unchanged, not
the end-of-stream error. -/
theorem ReadLine_propagates_reader_error (ls : List (List Char)) (e : Nat)
    (h : ∀ l ∈ ls, '\n' ∉ l ∧ l.length < maxScanTokenSize) :
    ((((readLines ls.length (New (joinLines ls) (some e))).2).ReadLine).1
        = ([], some (GoErr.reader e))) ∧ GoErr.reader e ≠ GoErr.eof := by
  constructor
  · have hmain := readLines_joinLines ls [] (some e) [] h
    rw [List.append_nil] at hmain
    show ((readLines ls.length ⟨joinLines ls, some e, none, []⟩).2).ReadLine.1 = _
    rw [hmain]
    simp [ReadLine_rerr]
  · intro hx
    exact GoErr.noConfusion hx

/-- Witness for C3 on the stream `a\n` followed by reader error `7`. -/
theorem ReadLine_propagates_reader_error_witness :
    ((((readLines 1 (New (joinLines [['a']]) (some 7))).2).ReadLine).1
        = ([], some (GoErr.reader 7))) ∧ GoErr.reader 7 ≠ GoErr.eof :=
  ReadLine_propagates_reader_error [['a']] 7 (by decide)

/-- Counterexample for C3 as literally stated: with a 65536-byte
newline-free prefix, the scanner fails with its own too-long error and
the underlying reader error `5` is never surfaced. -/
theorem ReadLine_propagates_reader_error_cex :
    ((New (List.replicate maxScanTokenSize 'b') (some 5)).ReadLine).1
      ≠ ([], some (GoErr.reader 5)) := by
  have hrl := ReadLine_tooLong_of_long_line (List.replicate maxScanTokenSize 'b') [] (some 5) []
      (by simp [List.mem_replicate]) (by simp)
  rw [List.append_nil] at hrl
  show (FakeTerm.ReadLine ⟨List.replicate maxScanTokenSize 'b', some 5, none, []⟩).1 ≠ _
  rw [hrl]
  simp

/-- C4: for every instance state and every prompt, ReadPassword(prompt)
returns exactly the pair (line, error) — and successor state — that
ReadLine would return in that same stream state, and ReadPassword
writes nothing to the output sink. -/
theorem ReadPassword_eq_ReadLine (f : FakeTerm) (prompt : List Char) :
    f.ReadPassword prompt = f.ReadLine ∧
    ((f.ReadPassword prompt).2).wcalls = f.wcalls :=
  ⟨rfl, ReadLine_wcalls f⟩

/-- C5: SetBracketedPasteMode and SetPrompt leave the instance state
and the output sink log unchanged and have no effect on any subsequent
ReadLine, ReadPassword or Write result; SetSize, for every width and
height, returns a nil error and likewise changes nothing. -/
theorem setters_are_noops (f : FakeTerm) (b : Bool) (p q : List Char)
    (width height : Int) (wbeh : List Char → Nat × Option Nat) (buf : List Char) :
    f.SetBracketedPasteMode b = f ∧
    f.SetPrompt p = f ∧
    f.SetSize width height = (none, f) ∧
    (f.SetBracketedPasteMode b).wcalls = f.wcalls ∧
    (f.SetPrompt p).wcalls = f.wcalls ∧
    ((f.SetSize width height).2).wcalls = f.wcalls ∧
    ((f.SetPrompt p).SetBracketedPasteMode b).ReadLine = f.ReadLine ∧
    (((f.SetSize width height).2).SetPrompt p).ReadPassword q = f.ReadPassword q ∧
    ((f.SetBracketedPasteMode b).SetPrompt p).Write wbeh buf = f.Write wbeh buf :=
  ⟨rfl, rfl, rfl, rfl, rfl, rfl, rfl, rfl, rfl⟩

/-- C6: Write(buf) passes buf unchanged to the underlying output sink
in exactly one new sink call, returns exactly the byte count and error
the sink's write returned, and leaves the read-side state untouched. -/
theorem Write_forwards_verbatim (f : FakeTerm) (wbeh : List Char → Nat × Option Nat)
    (buf : List Char) :
    (f.Write wbeh buf).1 = wbeh buf ∧
    ((f.Write wbeh buf).2).wcalls = f.wcalls ++ [buf] ∧
    ((f.Write wbeh buf).2).data = f.data ∧
    ((f.Write wbeh buf).2).rerr = f.rerr ∧
    ((f.Write wbeh buf).2).serr = f.serr :=
  ⟨rfl, rfl, rfl, rfl, rfl⟩

/-- C7 (amended): the end-of-stream error and underlying stream errors
are terminal for an instance — once a ReadLine call has returned the
end-of-stream error or an underlying reader error (as opposed to the
scanner's own too-long-line error), every one of the next `n` ReadLine
calls also returns an error (never again a line with a nil error), and
so does the call after them.  After the too-long-line error the next
call may first return the oversized buffered segment as a line. -/
theorem ReadLine_error_is_terminal (f : FakeTerm) (e : GoErr)
    (h : (f.ReadLine).1.2 = some e) (hne : e ≠ GoErr.tooLong) (n : Nat) :
    (∀ r ∈ (readLines n ((f.ReadLine).2)).1, r.2.isSome) ∧
    ((((readLines n ((f.ReadLine).2)).2).ReadLine).1.2).isSome := by
  obtain ⟨hserr, hdata⟩ := ReadLine_err_state f e h hne
  have hiter := readLines_serr n ((f.ReadLine).2) e hserr hdata
  constructor
  · intro r hr
    rw [hiter] at hr
    dsimp only at hr
    rw [List.eq_of_mem_replicate hr]
    rfl
  · have h2 : ((readLines n ((f.ReadLine).2)).2) = (f.ReadLine).2 := by rw [hiter]
    rw [h2, ReadLine_serr_nil _ e hserr hdata]
    rfl

/-- Witness for C7: a fresh empty stream errors with end-of-stream on
its first read, and the two reads after it (and the one after those)
all return errors. -/
theorem ReadLine_error_is_terminal_witness :
    ((((New [] none).ReadLine).1.2) = some GoErr.eof) ∧
    (GoErr.eof ≠ GoErr.tooLong) ∧
    ((∀ r ∈ (readLines 2 (((New [] none).ReadLine).2)).1, r.2.isSome) ∧
      ((((readLines 2 (((New [] none).ReadLine).2)).2).ReadLine).1.2).isSome) :=
  ⟨by decide, by decide,
    ReadLine_error_is_terminal (New [] none) GoErr.eof (by decide) (by decide) 2⟩

/-- Counterexample for C7 as literally stated: on a 65536-byte
newline-free stream the first ReadLine returns the scanner's too-long
error, yet the very next ReadLine returns a line with a nil error, so
an error return is not always terminal. -/
theorem ReadLine_error_is_terminal_cex :
    ((((New (List.replicate maxScanTokenSize 'a') none).ReadLine).1.2).isSome = true) ∧
    ((((New (List.replicate maxScanTokenSize 'a') none).ReadLine).2).ReadLine).1.2
      = none := by
  have hnl : '\n' ∉ List.replicate maxScanTokenSize 'a' := by
    intro hmem
    exact absurd (List.eq_of_mem_replicate hmem) (by decide)
  have hrl := ReadLine_tooLong_of_long_line (List.replicate maxScanTokenSize 'a') [] none []
      hnl (by simp)
  rw [List.append_nil] at hrl
  obtain ⟨hne, hnl2⟩ := take_of_long_seg (List.replicate maxScanTokenSize 'a') [] hnl (by simp)
  rw [List.append_nil] at hne hnl2
  have hrl2 := ReadLine_serr_buffered ((List.replicate maxScanTokenSize 'a').take maxScanTokenSize)
      none GoErr.tooLong [] hne hnl2
  have hNew : New (List.replicate maxScanTokenSize 'a') none
      = ⟨List.replicate maxScanTokenSize 'a', none, none, []⟩ := rfl
  constructor
  · rw [hNew, hrl]
    rfl
  · rw [hNew, hrl]
    dsimp only
    rw [hrl2]

/-- C9: a final non-empty line not terminated by a newline (and shorter
than the scanner's 65536-byte limit) is returned with a nil error by
the ReadLine call that follows the terminated lines; only the call
after that reports end-of-stream, so the partial line is not lost and
not treated as an error. -/
theorem ReadLine_final_partial_line (ls : List (List Char)) (tail : List Char)
    (h : ∀ l ∈ ls, '\n' ∉ l ∧ l.length < maxScanTokenSize)
    (ht0 : tail ≠ []) (ht1 : '\n' ∉ tail) (ht2 : tail.length < maxScanTokenSize) :
    ((((readLines ls.length (New (joinLines ls ++ tail) none)).2).ReadLine).1
        = (trimRightCRLF tail, none)) ∧
    (((((readLines ls.length (New (joinLines ls ++ tail) none)).2).ReadLine).2).ReadLine).1
        = ([], some GoErr.eof) := by
  have hmain := readLines_joinLines ls tail none [] h
  have hstate : (readLines ls.length (New (joinLines ls ++ tail) none)).2
      = ⟨tail, none, none, []⟩ := by
    show (readLines ls.length ⟨joinLines ls ++ tail, none, none, []⟩).2 = _
    rw [hmain]
  have htail := ReadLine_tail tail [] ht0 ht1 ht2
  constructor
  · rw [hstate, htail]
  · rw [hstate, htail]
    show (FakeTerm.ReadLine ⟨[], none, some GoErr.eof, []⟩).1 = _
    rw [ReadLine_serr_nil ⟨[], none, some GoErr.eof, []⟩ GoErr.eof rfl rfl]

/-- Witness for C9: the two-byte unterminated stream `hi`. -/
theorem ReadLine_final_partial_line_witness :
    ((((readLines (List.length ([] : List (List Char)))
        (New (joinLines [] ++ ['h', 'i']) none)).2).ReadLine).1
        = (trimRightCRLF ['h', 'i'], none)) ∧
    (((((readLines (List.length ([] : List (List Char)))
        (New (joinLines [] ++ ['h', 'i']) none)).2).ReadLine).2).ReadLine).1
        = ([], some GoErr.eof) :=
  ReadLine_final_partial_line [] ['h', 'i'] (by decide) (by decide) (by decide) (by decide)

/-- C10 (amended): there is a maximum line length, the scanner's
default maximum token size of 65536 bytes: once the stream reaches a
newline-free segment of at least that many bytes, ReadLine returns an
empty string and the scanner's own too-long error — distinct from
every underlying reader error and from end-of-stream.  The next call
returns the 65536 buffered bytes of the oversized segment as a line
with a nil error (the rest of the stream is never read), and after
that every read fails with the too-long error. -/
theorem ReadLine_too_long_line (ls : List (List Char)) (seg rest : List Char)
    (rerr : Option Nat)
    (h : ∀ l ∈ ls, '\n' ∉ l ∧ l.length < maxScanTokenSize)
    (h1 : '\n' ∉ seg) (h2 : maxScanTokenSize ≤ seg.length) :
    ((((readLines ls.length (New (joinLines ls ++ (seg ++ rest)) rerr)).2).ReadLine).1
        = ([], some GoErr.tooLong)) ∧
    (∀ e, GoErr.tooLong ≠ GoErr.reader e) ∧
    GoErr.tooLong ≠ GoErr.eof ∧
    (((((readLines ls.length (New (joinLines ls ++ (seg ++ rest)) rerr)).2).ReadLine).2).ReadLine).1
        = (trimRightCRLF ((seg ++ rest).take maxScanTokenSize), none) ∧
    (∀ n, ∀ r ∈ (readLines n
        (((((readLines ls.length
              (New (joinLines ls ++ (seg ++ rest)) rerr)).2).ReadLine).2).ReadLine).2).1,
      r.2 = some GoErr.tooLong) := by
  have hmain := readLines_joinLines ls (seg ++ rest) rerr [] h
  have hstate : (readLines ls.length (New (joinLines ls ++ (seg ++ rest)) rerr)).2
      = ⟨seg ++ rest, rerr, none, []⟩ := by
    show (readLines ls.length ⟨joinLines ls ++ (seg ++ rest), rerr, none, []⟩).2 = _
    rw [hmain]
  have hrl := ReadLine_tooLong_of_long_line seg rest rerr [] h1 h2
  obtain ⟨hne, hnl⟩ := take_of_long_seg seg rest h1 h2
  have hrl2 := ReadLine_serr_buffered ((seg ++ rest).take maxScanTokenSize) rerr
      GoErr.tooLong [] hne hnl
  refine ⟨?_, ?_, ?_, ?_, ?_⟩
  · rw [hstate, hrl]
  · intro e hx
    exact GoErr.noConfusion hx
  · intro hx
    exact GoErr.noConfusion hx
  · rw [hstate, hrl]
    dsimp only
    rw [hrl2]
  · intro n r hr
    rw [hstate, hrl] at hr
    dsimp only at hr
    rw [hrl2] at hr
    dsimp only at hr
    rw [readLines_serr n ⟨[], rerr, some GoErr.tooLong, []⟩ GoErr.tooLong rfl rfl] at hr
    dsimp only at hr
    rw [List.eq_of_mem_replicate hr]

/-- Witness for C10: a single 65536-byte newline-free stream. -/
theorem ReadLine_too_long_line_witness :
    ((((readLines (List.length ([] : List (List Char)))
        (New (joinLines [] ++ (List.replicate maxScanTokenSize 'a' ++ [])) none)).2).ReadLine).1
        = ([], some GoErr.tooLong)) ∧
    (∀ e, GoErr.tooLong ≠ GoErr.reader e) ∧
    GoErr.tooLong ≠ GoErr.eof ∧
    (((((readLines (List.length ([] : List (List Char)))
        (New (joinLines [] ++ (List.replicate maxScanTokenSize 'a' ++ []))
          none)).2).ReadLine).2).ReadLine).1
        = (trimRightCRLF ((List.replicate maxScanTokenSize 'a' ++ []).take maxScanTokenSize),
            none) ∧
    (∀ n, ∀ r ∈ (readLines n
        (((((readLines (List.length ([] : List (List Char)))
        (New (joinLines [] ++ (List.replicate maxScanTokenSize 'a' ++ []))
          none)).2).ReadLine).2).ReadLine).2).1,
      r.2 = some GoErr.tooLong) :=
  ReadLine_too_long_line [] (List.replicate maxScanTokenSize 'a') [] none
    (by decide)
    (by intro hmem; exact absurd (List.eq_of_mem_replicate hmem) (by decide))
    (by simp)

/-- Counterexample for C10's original claim that subsequent reads keep
failing: after the too-long error on a 65536-byte newline-free stream
(whose reader would later report error 3), the very next ReadLine
succeeds, returning the buffered bytes with a nil error. -/
theorem ReadLine_too_long_line_cex :
    ((((New (List.replicate maxScanTokenSize 'b') (some 3)).ReadLine).1.2)
        = some GoErr.tooLong) ∧
    ((((New (List.replicate maxScanTokenSize 'b') (some 3)).ReadLine).2).ReadLine).1.2
      = none := by
  have hnl : '\n' ∉ List.replicate maxScanTokenSize 'b' := by
    intro hmem
    exact absurd (List.eq_of_mem_replicate hmem) (by decide)
  have hrl := ReadLine_tooLong_of_long_line (List.replicate maxScanTokenSize 'b') []
      (some 3) [] hnl (by simp)
  rw [List.append_nil] at hrl
  obtain ⟨hne, hnl2⟩ := take_of_long_seg (List.replicate maxScanTokenSize 'b') [] hnl (by simp)
  rw [List.append_nil] at hne hnl2
  have hrl2 := ReadLine_serr_buffered
      ((List.replicate maxScanTokenSize 'b').take maxScanTokenSize)
      (some 3) GoErr.tooLong [] hne hnl2
  have hNew : New (List.replicate maxScanTokenSize 'b') (some 3)
      = ⟨List.replicate maxScanTokenSize 'b', some 3, none, []⟩ := rfl
  constructor
  · rw [hNew, hrl]
  · rw [hNew, hrl]
    dsimp only
    rw [hrl2]

/-- Counterexample for C9 as literally stated: a 65536-byte final
unterminated line is not returned; ReadLine yields the scanner's
too-long error instead of the line with a nil error. -/
theorem ReadLine_final_partial_line_cex :
    ((New (List.replicate maxScanTokenSize 'c') none).ReadLine).1
      ≠ (trimRightCRLF (List.replicate maxScanTokenSize 'c'), none) := by
  have hrl := ReadLine_tooLong_of_long_line (List.replicate maxScanTokenSize 'c') [] none []
      (by intro hmem; exact absurd (List.eq_of_mem_replicate hmem) (by decide))
      (by simp)
  rw [List.append_nil] at hrl
  show (FakeTerm.ReadLine ⟨List.replicate maxScanTokenSize 'c', none, none, []⟩).1 ≠ _
  rw [hrl]
  simp
